import Mathlib

/-!
Verification development for the `v2_dataset_tools` repository
(`experiments/experiments.py`): the experiment path naming/resolution
scheme of `do_experiment` and `get_results_from_db_path`.

Strings are embedded as `List Char`.  Python's `s.split("/")`,
`"/".join(l)`, `int(s)` and `f"{n}"` (decimal rendering of a natural
number) are embedded as `splitSlash`, `joinSlash`, `pyInt?` and
`natChars` below, with Python's semantics (`"".split("/") == [""]`,
negative indexing on lists, `int` raising `ValueError` on non-numeric
input, list indexing raising `IndexError` out of range).
-/

deriving instance DecidableEq for Except

namespace V2

/-- Convenience: the character list of a string literal. -/
def strL (s : String) : List Char := s.data

/-- Python `s.split("/")`: splits on every `'/'`; the empty string
yields `[""]`, and adjacent separators yield empty segments. -/
def splitSlash : List Char → List (List Char)
  | [] => [[]]
  | c :: cs =>
    if c = '/' then [] :: splitSlash cs
    else
      match splitSlash cs with
      | [] => [[c]]
      | g :: gs => (c :: g) :: gs

/-- Python `"/".join(parts)`. -/
def joinSlash : List (List Char) → List Char
  | [] => []
  | [g] => g
  | g :: h :: t => g ++ '/' :: joinSlash (h :: t)

theorem splitSlash_ne_nil (cs : List Char) : splitSlash cs ≠ [] := by
  induction cs with
  | nil => simp [splitSlash]
  | cons c cs ih =>
    simp only [splitSlash]
    split
    · simp
    · split
      · simp
      · simp

theorem splitSlash_append (x y : List Char) :
    splitSlash (x ++ '/' :: y) = splitSlash x ++ splitSlash y := by
  induction x with
  | nil => simp [splitSlash]
  | cons c cs ih =>
    by_cases hc : c = '/'
    · subst hc
      simp [splitSlash, ih]
    · rcases h : splitSlash cs with _ | ⟨g, gs⟩
      · exact absurd h (splitSlash_ne_nil cs)
      · simp [splitSlash, if_neg hc, ih, h]

theorem splitSlash_of_noSlash (x : List Char) (h : '/' ∉ x) :
    splitSlash x = [x] := by
  induction x with
  | nil => rfl
  | cons c cs ih =>
    have hc : c ≠ '/' := fun hc => h (hc ▸ List.mem_cons_self c cs)
    have hcs : '/' ∉ cs := fun hm => h (List.mem_cons_of_mem c hm)
    simp only [splitSlash, if_neg hc, ih hcs]

theorem joinSlash_splitSlash (s : List Char) :
    joinSlash (splitSlash s) = s := by
  induction s with
  | nil => rfl
  | cons c cs ih =>
    by_cases hc : c = '/'
    · subst hc
      simp only [splitSlash, if_pos rfl]
      rcases h : splitSlash cs with _ | ⟨g, gs⟩
      · exact absurd h (splitSlash_ne_nil cs)
      · rw [h] at ih
        simp only [joinSlash, List.nil_append]
        rw [ih]
    · simp only [splitSlash, if_neg hc]
      rcases h : splitSlash cs with _ | ⟨g, gs⟩
      · exact absurd h (splitSlash_ne_nil cs)
      · rw [h] at ih
        cases gs with
        | nil => simpa [joinSlash] using congrArg (c :: ·) ih
        | cons g2 gs2 =>
          simp only [joinSlash, List.cons_append] at ih ⊢
          rw [ih]

/-- The character of a decimal digit, as produced by Python's
decimal formatting. -/
def digitChar : Nat → Char
  | 0 => '0'
  | 1 => '1'
  | 2 => '2'
  | 3 => '3'
  | 4 => '4'
  | 5 => '5'
  | 6 => '6'
  | 7 => '7'
  | 8 => '8'
  | 9 => '9'
  | _ => '*'

/-- The numeric value of a decimal digit character, `none` for a
non-digit (what Python's `int` accepts per character). -/
def digitVal (c : Char) : Option Nat :=
  if c = '0' then some 0
  else if c = '1' then some 1
  else if c = '2' then some 2
  else if c = '3' then some 3
  else if c = '4' then some 4
  else if c = '5' then some 5
  else if c = '6' then some 6
  else if c = '7' then some 7
  else if c = '8' then some 8
  else if c = '9' then some 9
  else none

/-- Reference form of decimal rendering, recursing on the value (used
in proofs; `natChars` below is the equal, kernel-reducible form). -/
def natCharsRec (n : Nat) : List Char :=
  if _h : n < 10 then [digitChar n]
  else natCharsRec (n / 10) ++ [digitChar (n % 10)]
decreasing_by exact Nat.div_lt_self (by omega) (by omega)

/-- Fuel-driven digit accumulator: structural recursion on the fuel so
that closed evaluations reduce in the kernel. -/
def natCharsAux : Nat → Nat → List Char → List Char
  | 0, _, acc => acc
  | fuel + 1, n, acc =>
    if n < 10 then digitChar n :: acc
    else natCharsAux fuel (n / 10) (digitChar (n % 10) :: acc)

/-- Python `f"{n}"` for a natural number: its decimal digits. -/
def natChars (n : Nat) : List Char := natCharsAux (n + 1) n []

theorem natCharsAux_correct :
    ∀ (fuel n : Nat) (acc : List Char), n < 10 ^ (fuel + 1) →
      natCharsAux (fuel + 1) n acc = natCharsRec n ++ acc := by
  intro fuel
  induction fuel with
  | zero =>
    intro n acc h
    have h10 : n < 10 := by simpa using h
    rw [natCharsRec]
    simp [natCharsAux, h10]
  | succ fuel ih =>
    intro n acc h
    by_cases h10 : n < 10
    · rw [natCharsRec]
      simp [natCharsAux, h10]
    · have hdiv : n / 10 < 10 ^ (fuel + 1) := by
        rw [Nat.div_lt_iff_lt_mul (by omega)]
        calc n < 10 ^ (fuel + 1 + 1) := h
          _ = 10 ^ (fuel + 1) * 10 := by ring
      have hbody : natCharsAux (fuel + 1 + 1) n acc =
          if n < 10 then digitChar n :: acc
          else natCharsAux (fuel + 1) (n / 10) (digitChar (n % 10) :: acc) :=
        rfl
      rw [hbody, if_neg h10, ih (n / 10) (digitChar (n % 10) :: acc) hdiv]
      conv_rhs => rw [natCharsRec]
      rw [dif_neg h10]
      simp

theorem natChars_eq_rec (n : Nat) : natChars n = natCharsRec n := by
  unfold natChars
  have hb : n < 10 ^ (n + 1) := by
    calc n < 10 ^ n := Nat.lt_pow_self (by omega) n
      _ ≤ 10 ^ (n + 1) := Nat.pow_le_pow_right (by omega) (by omega)
  rw [natCharsAux_correct n n [] hb, List.append_nil]

def parseNatAux : List Char → Nat → Option Nat
  | [], acc => some acc
  | c :: cs, acc =>
    match digitVal c with
    | some d => parseNatAux cs (acc * 10 + d)
    | none => none

/-- Decimal parsing of an (unsigned, nonempty) digit string. -/
def parseNat? : List Char → Option Nat
  | [] => none
  | c :: cs => parseNatAux (c :: cs) 0

/-- Python `int(s)` on a string: an optional single sign followed by
decimal digits; `none` models the `ValueError` raised on any other
input.  (Python additionally strips surrounding whitespace and allows
`_` digit-group separators; no claim here exercises those forms.) -/
def pyInt? (cs : List Char) : Option Int :=
  match cs with
  | [] => none
  | c :: rest =>
    if c = '-' then (parseNat? rest).map (fun n => -(n : Int))
    else if c = '+' then (parseNat? rest).map Int.ofNat
    else (parseNat? (c :: rest)).map Int.ofNat

theorem digitVal_digitChar {d : Nat} (h : d < 10) :
    digitVal (digitChar d) = some d := by
  interval_cases d <;> rfl

theorem natCharsRec_mem {n : Nat} {c : Char} (h : c ∈ natCharsRec n) :
    ∃ d, d < 10 ∧ c = digitChar d := by
  induction n using Nat.strong_induction_on with
  | _ n ih =>
    rw [natCharsRec] at h
    split at h
    · next h10 =>
      refine ⟨n, h10, ?_⟩
      simpa using h
    · next h10 =>
      rcases List.mem_append.mp h with h1 | h2
      · exact ih (n / 10) (Nat.div_lt_self (by omega) (by omega)) h1
      · exact ⟨n % 10, Nat.mod_lt _ (by omega), by simpa using h2⟩

theorem natCharsRec_ne_nil (n : Nat) : natCharsRec n ≠ [] := by
  rw [natCharsRec]
  split
  · simp
  · simp

theorem slash_not_mem_natChars (n : Nat) : '/' ∉ natChars n := by
  rw [natChars_eq_rec]
  intro hmem
  rcases natCharsRec_mem hmem with ⟨d, hd, hc⟩
  interval_cases d <;> simp [digitChar] at hc

theorem parseNatAux_append (a b : List Char) (acc : Nat) :
    parseNatAux (a ++ b) acc =
      match parseNatAux a acc with
      | some acc2 => parseNatAux b acc2
      | none => none := by
  induction a generalizing acc with
  | nil => simp [parseNatAux]
  | cons c cs ih =>
    simp only [List.cons_append, parseNatAux]
    cases digitVal c with
    | none => simp
    | some d => simp [ih]

theorem parseNatAux_natCharsRec (n : Nat) :
    ∀ acc, parseNatAux (natCharsRec n) acc =
      some (acc * 10 ^ (natCharsRec n).length + n) := by
  induction n using Nat.strong_induction_on with
  | _ n ih =>
    intro acc
    rw [natCharsRec]
    split
    · next h10 =>
      simp [parseNatAux, digitVal_digitChar h10]
    · next h10 =>
      rw [parseNatAux_append]
      rw [ih (n / 10) (Nat.div_lt_self (by omega) (by omega)) acc]
      simp only [parseNatAux, digitVal_digitChar (Nat.mod_lt n (by omega) : n % 10 < 10),
        List.length_append, List.length_cons, List.length_nil]
      congr 1
      have hmod : n / 10 * 10 + n % 10 = n := by omega
      calc (acc * 10 ^ (natCharsRec (n / 10)).length + n / 10) * 10 + n % 10
          = acc * (10 ^ (natCharsRec (n / 10)).length * 10) + (n / 10 * 10 + n % 10) := by
            ring
        _ = acc * 10 ^ ((natCharsRec (n / 10)).length + (0 + 1)) + n := by
            rw [hmod]
            ring

theorem parseNat_natCharsRec (n : Nat) : parseNat? (natCharsRec n) = some n := by
  rcases h : natCharsRec n with _ | ⟨c, cs⟩
  · exact absurd h (natCharsRec_ne_nil n)
  · have := parseNatAux_natCharsRec n 0
    rw [h] at this
    simp only [parseNat?]
    simpa using this

theorem parseNat_natChars (n : Nat) : parseNat? (natChars n) = some n := by
  rw [natChars_eq_rec]
  exact parseNat_natCharsRec n

theorem natChars_injective {a b : Nat} (h : natChars a = natChars b) :
    a = b := by
  have ha := parseNat_natChars a
  rw [h, parseNat_natChars b] at ha
  exact (Option.some.injEq _ _).mp ha.symm

theorem pyInt_natChars (n : Nat) : pyInt? (natChars n) = some (n : Int) := by
  rw [natChars_eq_rec]
  rcases h : natCharsRec n with _ | ⟨c, cs⟩
  · exact absurd h (natCharsRec_ne_nil n)
  · have hc : ∃ d, d < 10 ∧ c = digitChar d := by
      apply natCharsRec_mem (n := n)
      rw [h]; exact List.mem_cons_self c cs
    rcases hc with ⟨d, hd, rfl⟩
    have hminus : digitChar d ≠ '-' := by interval_cases d <;> simp [digitChar]
    have hplus : digitChar d ≠ '+' := by interval_cases d <;> simp [digitChar]
    simp only [pyInt?, if_neg hminus, if_neg hplus]
    rw [← h, parseNat_natCharsRec]
    rfl

/-! ## Path codec

`parseBasePath` embeds lines 47-52 of `do_experiment`;
`decodeDbPath` embeds lines 126-129 of `get_results_from_db_path`. -/

/-- Lines 47-52 of `do_experiment`: split `base_path` on `/`; the first
segment is the experiment name; a single-segment path gets the literal
sample name `"None"`, otherwise the remaining segments are rejoined with
`/` as the sample name.  (`splitSlash` never returns `[]`, so the
`headD` default is never used, matching Python's `name_parts[0]`.) -/
def parseBasePath (base_path : List Char) : List Char × List Char :=
  let name_parts := splitSlash base_path
  let experiment_name := name_parts.headD []
  if name_parts.length = 1 then (experiment_name, strL "None")
  else (experiment_name, joinSlash (name_parts.drop 1))

/-- Lines 126-129 of `get_results_from_db_path`: split `db_path` on `/`;
the first segment is the experiment name, `int()` of the last segment is
the run number (a `none` result models the `ValueError` that `int`
raises at line 128, before any lookup), and the middle segments
(`path_parts[1:-1]`) are rejoined with `/` as the sample name. -/
def decodeDbPath (db_path : List Char) :
    Option (List Char × List Char × Int) :=
  match pyInt? ((splitSlash db_path).getLastD []) with
  | none => none
  | some run_number =>
      some ((splitSlash db_path).headD [],
        joinSlash ((splitSlash db_path).drop 1).dropLast, run_number)

/-! ## Experiment store model

The external collaborator (the qcodes experiment container) is not part
of this repository; it is modelled from the spec (§6): lookup-by-name
returns exactly one record or fails (zero or more than one match), a
creation operation yields a fresh record with counter 0, the run
context appends a run to the experiment's ordered run list with a fresh
external run id and advances the per-experiment counter after the
completed run. -/

/-- One persisted run: its external numeric id and the persisted rows
(rows are opaque tokens; their content plays no role in the claims). -/
structure Run where
  run_id : Nat
  rows : List Nat
deriving DecidableEq, Repr

/-- One experiment record of the external store.  `exp_id` is the
internal experiment id; `id` is the externally visible id field, which
after a plain lookup may disagree with `exp_id` (the collaborator
defect that line 56 of the source works around). -/
structure Exp where
  exp_id : Nat
  id : Nat
  name : List Char
  sample_name : List Char
  last_counter : Nat
  dataSets : List Run
deriving DecidableEq, Repr

/-- The external store: the experiment records plus fresh-id sources. -/
structure Store where
  exps : List Exp
  next_exp_id : Nat
  next_run_id : Nat
deriving DecidableEq, Repr

/-- The Python exceptions the embedded operations can surface. -/
inductive PyError where
  | valueError (msg : List Char)
  | indexError
  | keyError
deriving DecidableEq, Repr

/-- The message of the ValueError raised at lines 134-138 (quotes of the
source around do_experiment elided). -/
def notUniqueMsg : List Char :=
  strL ("The experiment and sample name combination is not unique. " ++
    "Are you sure you have used the do_experiment function to acquire data?")

/-- The message of the ValueError Python's `int` raises on a
non-numeric literal. -/
def intConversionMsg : List Char :=
  strL "invalid literal for int with base 10"

/-- The records of `st` matching the pair (name, sample). -/
def matchingExps (st : Store) (name sample : List Char) : List Exp :=
  st.exps.filter (fun e => decide (e.name = name ∧ e.sample_name = sample))

/-- Modelled from the spec: the external lookup
`load_experiment_by_name(name, sample)` returns the unique matching
record and raises ValueError when zero or more than one record matches
(§6: "lookup-by-name returning either exactly one record, zero
(triggering creation), or more than one (ambiguous → error)").  The
record is returned as stored: any `id`/`exp_id` disagreement persists
(the collaborator defect). -/
def loadExperimentByName (st : Store) (name sample : List Char) :
    Except Unit Exp :=
  match matchingExps st name sample with
  | [e] => .ok e
  | _ => .error ()

/-- Replace the record with the given `exp_id` by `e`. -/
def storeUpdate (st : Store) (e : Exp) : Store :=
  { st with exps := st.exps.map (fun x => if x.exp_id = e.exp_id then e else x) }

/-- Lines 54-62 of `do_experiment`: try the lookup; on success apply the
id-field correction `experiment.id = experiment.exp_id` (line 56); on
ValueError — which the source comments as "experiment does not exist
yet", though the collaborator also raises ValueError on an ambiguous
match — initialize the backing store and create a fresh record
(modelled from the spec: creation yields a record with consistent id
fields and counter 0). -/
def resolveOrCreate (st : Store) (experiment_name sample_name : List Char) :
    Store × Exp :=
  match loadExperimentByName st experiment_name sample_name with
  | .ok e =>
      let e2 := { e with id := e.exp_id }
      (storeUpdate st e2, e2)
  | .error _ =>
      let e : Exp :=
        { exp_id := st.next_exp_id, id := st.next_exp_id,
          name := experiment_name, sample_name := sample_name,
          last_counter := 0, dataSets := [] }
      ({ st with exps := st.exps ++ [e], next_exp_id := st.next_exp_id + 1 }, e)

/-- Modelled from the spec: the scoped run of lines 84-86.  The sweep's
rows are persisted as a new run with the next external run id, appended
to the experiment's ordered run list, and the per-experiment counter
advances after the completed run.  Returns the updated store, the run
id (`datasaver.run_id`, line 88) and the updated record. -/
def performRun (st : Store) (e : Exp) (rows : List Nat) :
    Store × Nat × Exp :=
  let r : Run := { run_id := st.next_run_id, rows := rows }
  let e2 := { e with dataSets := e.dataSets ++ [r],
                     last_counter := e.last_counter + 1 }
  ({ storeUpdate st e2 with next_run_id := st.next_run_id + 1 },
   st.next_run_id, e2)

/-- A value of the results dictionary of lines 94-100. -/
inductive ResVal where
  | data_set_path (p : List Char)
  | dataid (n : Nat)
  | dataset (r : Run)
  | experiment (e : Exp)
  | measurement
deriving DecidableEq, Repr

/-- Lines 94-100: the results dictionary, as a lookup on the key;
`none` models the KeyError a missing key raises at line 102. -/
def resultsDict (data_set_path : List Char) (dataid : Nat) (dataset : Run)
    (experiment : Exp) (k : List Char) : Option ResVal :=
  if k = strL "data_set_path" then some (.data_set_path data_set_path)
  else if k = strL "dataid" then some (.dataid dataid)
  else if k = strL "dataset" then some (.dataset dataset)
  else if k = strL "experiment" then some (.experiment experiment)
  else if k = strL "measurement" then some .measurement
  else none

/-- Line 102's comprehension `[results[k] for k in return_format]`:
`none` models the KeyError raised when some key is missing. -/
def collectResults (f : List Char → Option ResVal) :
    List (List Char) → Option (List ResVal)
  | [] => some []
  | k :: ks =>
    match f k with
    | none => none
    | some v =>
      match collectResults f ks with
      | none => none
      | some vs => some (v :: vs)

/-- The embedding of `do_experiment` (lines 15-102).  `rows` stands for
the rows the sweep object produces; the measurement wiring of lines
65-82 (subscribers, setup/cleanup callbacks, write period) registers
side effects on the external context that no claim concerns.  Returns
the store after the call together with the returned list, or the
exception surfaced. -/
def do_experiment (st : Store) (base_path : List Char) (rows : List Nat)
    (return_format : Option (List (List Char))) :
    Store × Except PyError (List ResVal) :=
  -- lines 44-45: default return format
  let rf := return_format.getD [strL "data_set_path"]
  -- lines 47-52
  let ns := parseBasePath base_path
  -- lines 54-62
  let s1 := resolveOrCreate st ns.1 ns.2
  -- line 64: the pre-run counter
  let counter := s1.2.last_counter
  -- lines 84-88: the scoped run (its store effects stand whether or not
  -- line 102 then raises KeyError)
  let s2 := performRun s1.1 s1.2 rows
  let dataid := s2.2.1
  -- line 89
  let data_set_path := base_path ++ '/' :: natChars counter
  -- lines 94-102
  (s2.1,
    match collectResults
        (resultsDict data_set_path dataid
          { run_id := dataid, rows := rows } s2.2.2) rf with
    | some vals => .ok vals
    | none => .error .keyError)

/-- The experiment record the call works with after lines 54-62: the
looked-up record with the id correction applied, or the freshly created
record. -/
def resolvedExperiment (st : Store) (base_path : List Char) : Exp :=
  (resolveOrCreate st (parseBasePath base_path).1 (parseBasePath base_path).2).2

/-- Line 64: the value of the run-sequence counter read after resolving
or creating the experiment and before the run. -/
def preRunCounter (st : Store) (base_path : List Char) : Nat :=
  (resolvedExperiment st base_path).last_counter

/-- Python list indexing `l[i]` with an `int` index: non-negative
indexes from the front, negative from the back; `none` models the
IndexError raised out of range. -/
def pyIndex {α : Type} (l : List α) (i : Int) : Option α :=
  if 0 ≤ i then l.get? i.toNat
  else if i.natAbs ≤ l.length then l.get? (l.length - i.natAbs)
  else none

/-- The embedding of `get_results_from_db_path` (lines 118-145).  The
`return_as_dict` conversion of lines 142-143 only re-presents the
fetched run and no claim concerns it, so the fetched run itself is
returned. -/
def get_results_from_db_path (st : Store) (db_path : List Char) :
    Except PyError Run :=
  -- lines 126-129 (line 128's int() raises ValueError on a bad literal)
  match decodeDbPath db_path with
  | none => .error (.valueError intConversionMsg)
  | some (experiment_name, sample_name, run_number) =>
    -- lines 131-138: any lookup ValueError is replaced by the
    -- not-unique message
    match loadExperimentByName st experiment_name sample_name with
    | .error _ => .error (.valueError notUniqueMsg)
    | .ok exp =>
      -- line 140: index into the ordered run list
      match pyIndex exp.dataSets run_number with
      | none => .error .indexError
      | some results => .ok results

/-- The experiment record `get_results_from_db_path` binds at line 132
and then uses directly at line 140: no id-field correction is applied
to it (contrast line 56 of `do_experiment`). -/
def getResultsLoadedExp (st : Store) (db_path : List Char) : Option Exp :=
  match decodeDbPath db_path with
  | none => none
  | some (experiment_name, sample_name, _) =>
    match loadExperimentByName st experiment_name sample_name with
    | .error _ => none
    | .ok exp => some exp

/-! ## Codec facts -/

theorem splitSlash_locator (c s : List Char) (n : Nat) (hc : '/' ∉ c) :
    splitSlash ((c ++ '/' :: s) ++ '/' :: natChars n) =
      (c :: splitSlash s) ++ [natChars n] := by
  rw [List.append_assoc, List.cons_append, splitSlash_append,
    splitSlash_of_noSlash c hc, splitSlash_append,
    splitSlash_of_noSlash (natChars n) (slash_not_mem_natChars n)]
  simp

/-- C3 decode lemma: on a locator of the emitted shape, `decodeDbPath`
recovers the three components. -/
theorem decodeDbPath_locator (c s : List Char) (n : Nat) (hc : '/' ∉ c) :
    decodeDbPath ((c ++ '/' :: s) ++ '/' :: natChars n) =
      some (c, s, (n : Int)) := by
  unfold decodeDbPath
  rw [splitSlash_locator c s n hc, List.getLastD_concat, pyInt_natChars]
  simp only [List.cons_append, List.headD_cons, List.drop_succ_cons,
    List.drop_zero, List.dropLast_concat, joinSlash_splitSlash]

end V2

/-- C3: for every collection `c` containing no `/`, every sub-identifier
string `s` and every natural number `n`, decoding the locator built as
`c + "/" + s + "/" + n` (the form `do_experiment` emits at line 89)
yields exactly `(c, s, n)`: the first `/`-segment, the `/`-rejoined
middle segments, and the integer value of the last segment. -/
theorem locator_roundtrip (c s : List Char) (n : Nat) (hc : '/' ∉ c) :
    V2.decodeDbPath ((c ++ '/' :: s) ++ '/' :: V2.natChars n) =
      some (c, s, (n : Int)) :=
  V2.decodeDbPath_locator c s n hc

/-- Witness for `locator_roundtrip` at collection `"exp"`, sub-identifier
`"samp/le"` (containing a slash) and run counter 12. -/
theorem locator_roundtrip_witness :
    V2.decodeDbPath ((V2.strL "exp" ++ '/' :: V2.strL "samp/le") ++
        '/' :: V2.natChars 12) =
      some (V2.strL "exp", V2.strL "samp/le", (12 : Int)) :=
  locator_roundtrip (V2.strL "exp") (V2.strL "samp/le") 12 (by decide)

/-- C4: for a collection and a sub-identifier containing no `/`, parsing
the identity-only path joined with `/` (lines 47-52 of `do_experiment`)
returns exactly that collection as the first segment and that
sub-identifier as the remainder; `parseBasePath` produces no run
counter. -/
theorem identity_roundtrip (c s : List Char) (hc : '/' ∉ c) (hs : '/' ∉ s) :
    V2.parseBasePath (c ++ '/' :: s) = (c, s) := by
  unfold V2.parseBasePath
  rw [V2.splitSlash_append, V2.splitSlash_of_noSlash c hc,
    V2.splitSlash_of_noSlash s hs]
  simp [V2.joinSlash]

/-- Witness for `identity_roundtrip` at `"cool_experiment"` and
`"my_sample"`. -/
theorem identity_roundtrip_witness :
    V2.parseBasePath (V2.strL "cool_experiment" ++ '/' :: V2.strL "my_sample") =
      (V2.strL "cool_experiment", V2.strL "my_sample") :=
  identity_roundtrip (V2.strL "cool_experiment") (V2.strL "my_sample")
    (by decide) (by decide)

/-- C7: a `base_path` containing no `/` (a single segment) is parsed by
`do_experiment` (lines 47-52) with the literal string `"None"` as the
sample name used for lookup and creation, the collection itself being
the experiment name. -/
theorem single_segment_sample_none (bp : List Char) (h : '/' ∉ bp) :
    V2.parseBasePath bp = (bp, V2.strL "None") := by
  unfold V2.parseBasePath
  rw [V2.splitSlash_of_noSlash bp h]
  rfl

/-- Witness for `single_segment_sample_none` at `"solo"`. -/
theorem single_segment_sample_none_witness :
    V2.parseBasePath (V2.strL "solo") = (V2.strL "solo", V2.strL "None") :=
  single_segment_sample_none (V2.strL "solo") (by decide)

/-- C10: when the last `/`-segment of the locator is not an integer
literal, `get_results_from_db_path` fails with the `int()` conversion
ValueError (line 128).  The conclusion holds for every store, so the
failure precedes any experiment lookup or run access; the message is
moreover not the lookup-failure message. -/
theorem bad_counter_int_error (st : V2.Store) (p : List Char)
    (h : V2.pyInt? ((V2.splitSlash p).getLastD []) = none) :
    V2.get_results_from_db_path st p =
        .error (.valueError V2.intConversionMsg) ∧
      V2.intConversionMsg ≠ V2.notUniqueMsg := by
  refine ⟨?_, by decide⟩
  unfold V2.get_results_from_db_path V2.decodeDbPath
  simp only [h]

/-- Witness for `bad_counter_int_error`: the locator `"a/b/xyz"` against
a store holding a matching experiment. -/
theorem bad_counter_int_error_witness :
    V2.get_results_from_db_path
        { exps := [{ exp_id := 0, id := 0, name := V2.strL "a",
                     sample_name := V2.strL "b", last_counter := 0,
                     dataSets := [] }],
          next_exp_id := 1, next_run_id := 0 }
        (V2.strL "a/b/xyz") =
      .error (.valueError V2.intConversionMsg) :=
  (bad_counter_int_error _ (V2.strL "a/b/xyz") (by decide)).1

namespace V2

theorem loadExperimentByName_not_unique (st : Store) (n s : List Char)
    (h : (matchingExps st n s).length ≠ 1) :
    loadExperimentByName st n s = .error () := by
  unfold loadExperimentByName
  rcases hm : matchingExps st n s with _ | ⟨a, _ | ⟨b, t⟩⟩
  · rfl
  · rw [hm] at h; simp at h
  · rfl

end V2

/-- C8: whenever the decoded (experiment name, sample name) pair does
not resolve to exactly one record — in particular when no record at all
matches — `get_results_from_db_path` raises the ValueError whose message
asserts the name combination is not unique (lines 131-138): nonexistence
and ambiguity are indistinguishable to the caller. -/
theorem missing_experiment_not_unique_error (st : V2.Store)
    (p n s : List Char) (i : Int)
    (hdec : V2.decodeDbPath p = some (n, s, i))
    (hcnt : (V2.matchingExps st n s).length ≠ 1) :
    V2.get_results_from_db_path st p =
      .error (.valueError V2.notUniqueMsg) := by
  unfold V2.get_results_from_db_path
  simp only [hdec]
  rw [V2.loadExperimentByName_not_unique st n s hcnt]

/-- Witness for `missing_experiment_not_unique_error`: the locator
`"a/b/0"` against the empty store (zero matches). -/
theorem missing_experiment_not_unique_error_witness :
    V2.get_results_from_db_path
        { exps := [], next_exp_id := 0, next_run_id := 0 }
        (V2.strL "a/b/0") =
      .error (.valueError V2.notUniqueMsg) :=
  missing_experiment_not_unique_error
    { exps := [], next_exp_id := 0, next_run_id := 0 }
    (V2.strL "a/b/0") (V2.strL "a") (V2.strL "b") 0
    (by decide) (by decide)

namespace V2

theorem pyIndex_eq_none {α : Type} (l : List α) (i : Int) :
    pyIndex l i = none ↔
      (0 ≤ i ∧ l.length ≤ i.toNat) ∨ (i < 0 ∧ l.length < i.natAbs) := by
  unfold pyIndex
  by_cases h0 : 0 ≤ i
  · rw [if_pos h0, List.get?_eq_none]
    constructor
    · intro h; exact Or.inl ⟨h0, h⟩
    · rintro (⟨_, h⟩ | ⟨hneg, _⟩)
      · exact h
      · omega
  · rw [if_neg h0]
    have hneg : i < 0 := by omega
    have habs : 1 ≤ i.natAbs := by omega
    by_cases hle : i.natAbs ≤ l.length
    · rw [if_pos hle]
      have : ¬ l.length ≤ l.length - i.natAbs := by omega
      rw [List.get?_eq_none]
      constructor
      · intro h; exact absurd h this
      · rintro (⟨hpos, _⟩ | ⟨_, hlt⟩)
        · exact absurd hpos h0
        · omega
    · rw [if_neg hle]
      constructor
      · intro _; exact Or.inr ⟨hneg, by omega⟩
      · intro _; rfl

/-- A store used to settle C6: a single experiment `("a", "b")` holding
exactly one run. -/
def runC6 : Run := { run_id := 4, rows := [5] }

def expC6 : Exp :=
  { exp_id := 0, id := 0, name := strL "a", sample_name := strL "b",
    last_counter := 1, dataSets := [runC6] }

def storeC6 : Store := { exps := [expC6], next_exp_id := 1, next_run_id := 5 }

end V2

/-- Counterexample to C6 as stated: the locator joining `a`, `b` and
`-1` decodes to run counter `-1`; the experiment's ordered run list has
length 1, so its
positions (zero-based, as §4.4 defines them) are exactly `{0}` and no
run exists at position `-1` — yet `get_results_from_db_path` does not
raise the out-of-range error: Python's negative indexing returns the
last run. -/
theorem run_index_error_iff_counterexample :
    V2.get_results_from_db_path V2.storeC6 (V2.strL "a/b/-1") =
        .ok V2.runC6 ∧
      V2.decodeDbPath (V2.strL "a/b/-1") =
        some (V2.strL "a", V2.strL "b", (-1 : Int)) ∧
      (-1 : Int) ∉ (List.range V2.expC6.dataSets.length).map Int.ofNat := by
  refine ⟨by decide, by decide, by decide⟩

/-- C6 amended: `get_results_from_db_path` raises the out-of-range
error if and only if the locator's run counter addresses no run under
Python's list-index semantics: a non-negative counter at least the
number of runs, or a negative counter whose magnitude exceeds the
number of runs.  (In particular a negative in-range counter such as
`-1` silently retrieves a run from the back instead of erroring.) -/
theorem run_index_error_iff (st : V2.Store) (p n s : List Char) (i : Int)
    (e : V2.Exp)
    (hdec : V2.decodeDbPath p = some (n, s, i))
    (hload : V2.loadExperimentByName st n s = .ok e) :
    V2.get_results_from_db_path st p = .error .indexError ↔
      (0 ≤ i ∧ e.dataSets.length ≤ i.toNat) ∨
        (i < 0 ∧ e.dataSets.length < i.natAbs) := by
  unfold V2.get_results_from_db_path
  simp only [hdec, hload]
  rw [← V2.pyIndex_eq_none]
  cases h : V2.pyIndex e.dataSets i with
  | none => simp
  | some r => simp

/-- Witness for `run_index_error_iff`: the locator `"a/b/5"` against the
one-run store: index 5 is out of range and the fetch raises the
out-of-range error. -/
theorem run_index_error_iff_witness :
    V2.get_results_from_db_path V2.storeC6 (V2.strL "a/b/5") =
      .error .indexError :=
  (run_index_error_iff V2.storeC6 (V2.strL "a/b/5")
      (V2.strL "a") (V2.strL "b") 5 V2.expC6
      (by decide) (by decide)).mpr (by decide)

namespace V2

theorem loadExperimentByName_ok_mem {st : Store} {n s : List Char} {e : Exp}
    (h : loadExperimentByName st n s = .ok e) : e ∈ st.exps := by
  unfold loadExperimentByName at h
  rcases hm : matchingExps st n s with _ | ⟨a, _ | ⟨b, t⟩⟩ <;> rw [hm] at h
  · simp at h
  · simp only [Except.ok.injEq] at h
    subst h
    exact List.mem_of_mem_filter (hm ▸ List.mem_cons_self a [])
  · simp at h

/-- A store used to settle C2: one experiment whose stored record has
the collaborator defect, the externally visible `id` (7) disagreeing
with the internal `exp_id` (3), and holding one run. -/
def expC2 : Exp :=
  { exp_id := 3, id := 7, name := strL "a", sample_name := strL "b",
    last_counter := 1, dataSets := [{ run_id := 0, rows := [] }] }

def storeC2 : Store := { exps := [expC2], next_exp_id := 4, next_run_id := 1 }

end V2

/-- Counterexample to C2 as stated: against `storeC2`, the lookup in
`get_results_from_db_path` succeeds and the record it binds at line 132
and uses at line 140 still has `id = 7 ≠ 3 = exp_id`: the id-field
correction is not applied there (only `do_experiment`, line 56, applies
it), refuting "in every operation that performs a lookup". -/
theorem id_correction_counterexample :
    V2.getResultsLoadedExp V2.storeC2 (V2.strL "a/b/0") = some V2.expC2 ∧
      V2.expC2.id = 7 ∧ V2.expC2.exp_id = 3 ∧
      V2.get_results_from_db_path V2.storeC2 (V2.strL "a/b/0") =
        .ok { run_id := 0, rows := [] } := by
  refine ⟨by decide, rfl, rfl, by decide⟩

/-- C2 amended: the id-field correction (assigning the externally
visible id from the internal experiment id, line 56) is applied in
`do_experiment` whenever the record is obtained via lookup — the record
`resolveOrCreate` hands on always has `id = exp_id`, on fresh creation
because the field is already consistent — but `get_results_from_db_path`
uses the looked-up record exactly as stored, applying no correction. -/
theorem id_correction_only_in_do_experiment :
    (∀ (st : V2.Store) (n s : List Char),
      (V2.resolveOrCreate st n s).2.id = (V2.resolveOrCreate st n s).2.exp_id) ∧
    (∀ (st : V2.Store) (p : List Char) (e : V2.Exp),
      V2.getResultsLoadedExp st p = some e → e ∈ st.exps) := by
  constructor
  · intro st n s
    unfold V2.resolveOrCreate
    cases h : V2.loadExperimentByName st n s with
    | ok e => rfl
    | error u => rfl
  · intro st p e h
    unfold V2.getResultsLoadedExp at h
    cases hdec : V2.decodeDbPath p with
    | none => rw [hdec] at h; simp at h
    | some v =>
      obtain ⟨n, s, i⟩ := v
      cases hload : V2.loadExperimentByName st n s with
      | error u => simp [hdec, hload] at h
      | ok e2 =>
        simp only [hdec, hload, Option.some.injEq] at h
        subst h
        exact V2.loadExperimentByName_ok_mem hload

/-- Witness for `id_correction_only_in_do_experiment`: applied to
`storeC2` — the record `do_experiment` would use has consistent ids,
and the record `get_results_from_db_path` uses is the stored
(uncorrected) one. -/
theorem id_correction_only_in_do_experiment_witness :
    (V2.resolveOrCreate V2.storeC2 (V2.strL "a") (V2.strL "b")).2.id =
        (V2.resolveOrCreate V2.storeC2 (V2.strL "a") (V2.strL "b")).2.exp_id ∧
      V2.expC2 ∈ V2.storeC2.exps :=
  ⟨id_correction_only_in_do_experiment.1 V2.storeC2 (V2.strL "a") (V2.strL "b"),
   id_correction_only_in_do_experiment.2 V2.storeC2 (V2.strL "a/b/0") V2.expC2
     (by decide)⟩

namespace V2

/-- Stores used to settle C1: two distinct records share the identity
`("expA", "sampA")` — the simulated ambiguous store of the spec. -/
def expAmb1 : Exp :=
  { exp_id := 1, id := 1, name := strL "expA", sample_name := strL "sampA",
    last_counter := 2, dataSets := [] }

def expAmb2 : Exp :=
  { exp_id := 2, id := 2, name := strL "expA", sample_name := strL "sampA",
    last_counter := 3, dataSets := [] }

def storeAmb : Store :=
  { exps := [expAmb1, expAmb2], next_exp_id := 3, next_run_id := 0 }

end V2

/-- C1, evaluated at the failing input: on the ambiguous store (two
records matching `("expA", "sampA")`), the lookup-only operation does
fail with the non-unique ValueError, but `do_experiment` does not: the
`except ValueError` of line 59 — commented "experiment does not exist
yet" — also catches the ambiguity failure, so `do_experiment` creates a
third matching record, runs the sweep and returns normally instead of
failing. -/
theorem ambiguous_lookup_behaviour :
    (V2.matchingExps V2.storeAmb (V2.strL "expA") (V2.strL "sampA")).length
        = 2 ∧
      (V2.do_experiment V2.storeAmb (V2.strL "expA/sampA") [7] none).2 =
        .ok [.data_set_path (V2.strL "expA/sampA/0")] ∧
      (V2.matchingExps
          (V2.do_experiment V2.storeAmb (V2.strL "expA/sampA") [7] none).1
          (V2.strL "expA") (V2.strL "sampA")).length = 3 ∧
      V2.get_results_from_db_path V2.storeAmb (V2.strL "expA/sampA/0") =
        .error (.valueError V2.notUniqueMsg) := by
  refine ⟨rfl, by decide, by decide, by decide⟩

namespace V2

theorem collectResults_mem {f : List Char → Option ResVal} :
    ∀ {ks : List (List Char)} {vs : List ResVal},
      collectResults f ks = some vs → ∀ {v : ResVal}, v ∈ vs →
        ∃ k ∈ ks, f k = some v := by
  intro ks
  induction ks with
  | nil =>
    intro vs h v hv
    simp only [collectResults, Option.some.injEq] at h
    subst h
    simp at hv
  | cons k ks ih =>
    intro vs h v hv
    unfold collectResults at h
    cases hf : f k with
    | none => rw [hf] at h; simp at h
    | some w =>
      rw [hf] at h
      cases hr : collectResults f ks with
      | none => rw [hr] at h; simp at h
      | some ws =>
        rw [hr] at h
        simp only [Option.some.injEq] at h
        subst h
        rcases List.mem_cons.mp hv with rfl | hmem
        · exact ⟨k, List.mem_cons_self _ _, hf⟩
        · rcases ih hr hmem with ⟨k2, hk2, hfk2⟩
          exact ⟨k2, List.mem_cons_of_mem _ hk2, hfk2⟩

theorem collectResults_none {f : List Char → Option ResVal} {k : List Char} :
    ∀ {ks : List (List Char)}, k ∈ ks → f k = none →
      collectResults f ks = none := by
  intro ks
  induction ks with
  | nil => intro hk; simp at hk
  | cons a ks ih =>
    intro hk hf
    unfold collectResults
    rcases List.mem_cons.mp hk with rfl | hmem
    · rw [hf]
    · cases hfa : f a with
      | none => rfl
      | some w => rw [ih hmem hf]

/-- The set of keys the results dictionary of lines 94-100 carries. -/
def validKey (k : List Char) : Prop :=
  k = strL "data_set_path" ∨ k = strL "dataid" ∨ k = strL "dataset" ∨
    k = strL "experiment" ∨ k = strL "measurement"

instance (k : List Char) : Decidable (validKey k) := by
  unfold validKey
  infer_instance

theorem resultsDict_eq_none {a : List Char} {b : Nat} {c : Run} {d : Exp}
    {k : List Char} (h : ¬ validKey k) : resultsDict a b c d k = none := by
  unfold resultsDict
  split_ifs with h1 h2 h3 h4 h5
  · exact absurd (Or.inl h1) h
  · exact absurd (Or.inr (Or.inl h2)) h
  · exact absurd (Or.inr (Or.inr (Or.inl h3))) h
  · exact absurd (Or.inr (Or.inr (Or.inr (Or.inl h4)))) h
  · exact absurd (Or.inr (Or.inr (Or.inr (Or.inr h5)))) h
  · rfl

theorem resultsDict_path_inj {a : List Char} {b : Nat} {c : Run} {d : Exp}
    {k p : List Char}
    (h : resultsDict a b c d k = some (.data_set_path p)) : p = a := by
  unfold resultsDict at h
  split_ifs at h <;> simp_all

theorem performRun_next_run_id (st : Store) (e : Exp) (rows : List Nat) :
    (performRun st e rows).1.next_run_id = st.next_run_id + 1 := rfl

theorem performRun_exp_id (st : Store) (e : Exp) (rows : List Nat) :
    (performRun st e rows).2.2.exp_id = e.exp_id := rfl

theorem performRun_counter (st : Store) (e : Exp) (rows : List Nat) :
    (performRun st e rows).2.2.last_counter = e.last_counter + 1 := rfl

theorem performRun_run_mem (st : Store) (e : Exp) (rows : List Nat) :
    ({ run_id := st.next_run_id, rows := rows } : Run)
      ∈ (performRun st e rows).2.2.dataSets := by
  unfold performRun
  simp

theorem performRun_mem (st : Store) (e : Exp) (rows : List Nat)
    (he : e ∈ st.exps) :
    (performRun st e rows).2.2 ∈ (performRun st e rows).1.exps := by
  unfold performRun storeUpdate
  simp only []
  exact List.mem_map.mpr ⟨e, he, by simp⟩

theorem resolveOrCreate_mem (st : Store) (n s : List Char) :
    (resolveOrCreate st n s).2 ∈ (resolveOrCreate st n s).1.exps := by
  unfold resolveOrCreate
  cases h : loadExperimentByName st n s with
  | ok e =>
    simp only [storeUpdate]
    exact List.mem_map.mpr ⟨e, loadExperimentByName_ok_mem h, by simp⟩
  | error u => simp

theorem resolveOrCreate_next_run_id (st : Store) (n s : List Char) :
    (resolveOrCreate st n s).1.next_run_id = st.next_run_id := by
  unfold resolveOrCreate
  cases h : loadExperimentByName st n s with
  | ok e => rfl
  | error u => rfl

end V2

/-- C5: any locator string among the values `do_experiment` returns on
normal completion equals `base_path + "/" + counter` with `counter` the
run-sequence counter read after resolving or creating the experiment
and before the run (`preRunCounter`); it differs from the string the
post-run counter would give — the run leaves the stored record's counter
at `preRunCounter + 1` — so the reported locator is not a value read
after the run.  The equality holds for every store, in particular for
every value of the external run-id source, so the locator is built from
the counter and not from the run's external numeric id. -/
theorem reported_locator_is_pre_run_counter
    (st : V2.Store) (bp : List Char) (rows : List Nat)
    (rfo : Option (List (List Char))) (vals : List V2.ResVal) (p : List Char)
    (hok : (V2.do_experiment st bp rows rfo).2 = .ok vals)
    (hmem : V2.ResVal.data_set_path p ∈ vals) :
    p = bp ++ '/' :: V2.natChars (V2.preRunCounter st bp) ∧
      p ≠ bp ++ '/' :: V2.natChars (V2.preRunCounter st bp + 1) ∧
      ∃ e ∈ (V2.do_experiment st bp rows rfo).1.exps,
        e.exp_id = (V2.resolvedExperiment st bp).exp_id ∧
          e.last_counter = V2.preRunCounter st bp + 1 := by
  unfold V2.do_experiment at hok
  simp only [] at hok
  have h1 : p = bp ++ '/' :: V2.natChars (V2.preRunCounter st bp) := by
    split at hok
    · rename_i vals' heq
      simp only [Except.ok.injEq] at hok
      subst hok
      obtain ⟨k, hk, hfk⟩ := V2.collectResults_mem heq hmem
      exact V2.resultsDict_path_inj hfk
    · rename_i heq
      exact absurd hok (by simp)
  refine ⟨h1, ?_, ?_⟩
  · rw [h1]
    intro h2
    have h3 := List.append_cancel_left h2
    have h4 : V2.natChars (V2.preRunCounter st bp) =
        V2.natChars (V2.preRunCounter st bp + 1) :=
      (List.cons.injEq _ _ _ _ ▸ h3).2
    have h5 := V2.natChars_injective h4
    omega
  · refine ⟨(V2.performRun
        (V2.resolveOrCreate st (V2.parseBasePath bp).1 (V2.parseBasePath bp).2).1
        (V2.resolvedExperiment st bp) rows).2.2, ?_, rfl, rfl⟩
    exact V2.performRun_mem _ _ rows (V2.resolveOrCreate_mem st _ _)

/-- Witness for `reported_locator_is_pre_run_counter`: a run against the
empty store reports the locator with counter 0. -/
theorem reported_locator_is_pre_run_counter_witness :
    V2.strL "a/b/0" =
      V2.strL "a/b" ++ '/' :: V2.natChars
        (V2.preRunCounter { exps := [], next_exp_id := 0, next_run_id := 0 }
          (V2.strL "a/b")) :=
  (reported_locator_is_pre_run_counter
      { exps := [], next_exp_id := 0, next_run_id := 0 }
      (V2.strL "a/b") [1] none
      [V2.ResVal.data_set_path (V2.strL "a/b/0")] (V2.strL "a/b/0")
      (by decide) (by decide)).1

/-- C9: when the requested `return_format` contains a key outside the
results dictionary, `do_experiment` raises KeyError only at line 102,
after the sweep has run and its rows have been persisted: the returned
value is the KeyError (no result, including the locator string, reaches
the caller), yet the store holds one more run — the fresh external run
id was consumed and some experiment record now carries the run with
exactly the sweep's rows. -/
theorem bad_return_key_errors_after_run
    (st : V2.Store) (bp : List Char) (rows : List Nat)
    (rf : List (List Char)) (k : List Char)
    (hk : k ∈ rf) (hbad : ¬ V2.validKey k) :
    (V2.do_experiment st bp rows (some rf)).2 = .error .keyError ∧
      (V2.do_experiment st bp rows (some rf)).1.next_run_id =
        st.next_run_id + 1 ∧
      ∃ e ∈ (V2.do_experiment st bp rows (some rf)).1.exps,
        ({ run_id := st.next_run_id, rows := rows } : V2.Run) ∈ e.dataSets := by
  refine ⟨?_, ?_, ?_⟩
  · unfold V2.do_experiment
    simp only [Option.getD_some]
    rw [V2.collectResults_none hk (V2.resultsDict_eq_none hbad)]
  · have h1 : (V2.do_experiment st bp rows (some rf)).1 =
        (V2.performRun
          (V2.resolveOrCreate st (V2.parseBasePath bp).1
            (V2.parseBasePath bp).2).1
          (V2.resolvedExperiment st bp) rows).1 := rfl
    rw [h1, V2.performRun_next_run_id, V2.resolveOrCreate_next_run_id]
  · refine ⟨(V2.performRun
        (V2.resolveOrCreate st (V2.parseBasePath bp).1 (V2.parseBasePath bp).2).1
        (V2.resolvedExperiment st bp) rows).2.2, ?_, ?_⟩
    · exact V2.performRun_mem _ _ rows (V2.resolveOrCreate_mem st _ _)
    · have h2 := V2.performRun_run_mem
        (V2.resolveOrCreate st (V2.parseBasePath bp).1 (V2.parseBasePath bp).2).1
        (V2.resolvedExperiment st bp) rows
      rwa [V2.resolveOrCreate_next_run_id] at h2

/-- Witness for `bad_return_key_errors_after_run`: requesting the key
`"bogus"` raises KeyError while the run was nevertheless persisted. -/
theorem bad_return_key_errors_after_run_witness :
    (V2.do_experiment { exps := [], next_exp_id := 0, next_run_id := 0 }
        (V2.strL "a/b") [2] (some [V2.strL "bogus"])).2 =
      .error .keyError :=
  (bad_return_key_errors_after_run
      { exps := [], next_exp_id := 0, next_run_id := 0 }
      (V2.strL "a/b") [2] [V2.strL "bogus"] (V2.strL "bogus")
      (by decide) (by decide)).1
